import Mathlib

/-!
Verification of the Perpignan board-game engine (perpignan.py).

The Python object graph is shallowly embedded as an arena/heap model:
players, tiles, slots and features are records stored in total functions
`Nat → _` addressed by ids, so Python object identity becomes id equality.
Python dicts used as ordered sets / maps become association lists with
dict-assignment semantics.  Machine integers are `Int`/`Nat` (Python ints
are unbounded, so no wrap-around modelling is needed).  Python exceptions
become explicit error values (`PErr`); code paths that raise before any
mutation are typed as read-only checks, mirroring the source, where the
checking section of `PerpignanBoard.place` (lines 640-727) performs no
writes.
-/

/-- Python exception classes reachable from the engine:
`CantPlaceThatThereError(reason)`, `ValueError(msg)`, and the `TypeError`
raised when a non-callable object is invoked. -/
inductive PErr where
  | cantPlace (reason : String)
  | valueError (msg : String)
  | typeError (msg : String)
deriving DecidableEq

/-- The `StateChangeInfo` events the engine emits through `log`:
`PlayerSheepleInfo`, `PlayerScoreInfo`, `CompletedInfo`, `TilePlaceInfo`.
Players and features are identified by heap id. -/
inductive Event where
  | sheeple (p : Nat)
  | scored (p : Nat)
  | completedFeat (f : Nat)
  | tilePlaced (t : Nat)
deriving DecidableEq

/-- The four concrete `Feature` subclasses: `Town`, `Road`, `Meadow`, `Mill`.
A pennant town (`Town(flags=1)`) has the same class `Town`; its flag count
lives in the `flags` field of `FeatureData`, exactly as in the source. -/
inductive FKind where
  | town
  | road
  | meadow
  | mill
deriving DecidableEq

/-- The slot class hierarchy: `Slot` (free link slot, used by
`Meadow.town_slots` connectors), `TileSlot` (the mill slot, index 12),
`EdgeSlot` (indices 0-11, carrying `available`). -/
inductive SlotKind where
  | plain
  | tileSlot
  | edge
deriving DecidableEq

/-- `Player`: score and sheeple count (starts at 19).  The name only feeds
logging and is kept outside the model; players are identified by id. -/
structure PlayerData where
  score : Nat
  sheeples : Nat
deriving DecidableEq

/-- A `Slot`: nullable feature reference; `tile` is the back reference of a
`TileSlot`/`EdgeSlot` (none for a free link slot); `available` is the
`EdgeSlot` flag (meaningless for the other kinds). -/
structure SlotData where
  kind : SlotKind
  tile : Option Nat
  available : Bool
  feature : Option Nat
deriving DecidableEq

/-- A `Feature`: member slot ids, the player -> committed-sheeple map as an
association list in dict insertion order, the `completed` flag, plus the
variant extras `Town.flags` and `Meadow.town_slots` (defaulted for the
other variants, mirroring attributes that simply do not exist on them). -/
structure FeatureData where
  kind : FKind
  slots : List Nat
  sheeples : List (Nat × Nat)
  completed : Bool
  flags : Nat
  townSlots : List Nat

/-- A `Tile`: slot-index -> slot-id map (indices 0-12 are meaningful, the
list `tile.slots` of the source), grid coordinates (-1,-1 until placed),
and the 8-neighbour count. -/
structure TileData where
  slots : Nat → Nat
  x : Int
  y : Int
  neighbours : Nat

/-- The whole mutable game-object graph: the 84x84 grid of
`PerpignanBoard` (a cell holds a tile id), the `available` coordinate set
in dict insertion order, and the four heaps, plus the stream of events
emitted through `log`. -/
structure GState where
  grid : Int → Int → Option Nat
  avail : List (Int × Int)
  tiles : Nat → TileData
  slots : Nat → SlotData
  feats : Nat → FeatureData
  players : Nat → PlayerData
  events : List Event

/-- Point update of a heap. -/
def updF {α : Type} (h : Nat → α) (i : Nat) (v : α) : Nat → α :=
  fun j => if j = i then v else h j

/-- `Tile.rotate_cw`: `self.slots = [self.slots[(i + 9) % 12] for i in
range(3 * 4)]` with the mill slot (index 12) re-appended unchanged.
Indices beyond 12 do not exist on the Python list; the model leaves them
fixed. -/
def rotCw (s : Nat → Nat) : Nat → Nat :=
  fun i => if i < 12 then s ((i + 9) % 12) else s i

/-- `Tile.rotate_ccw`: same with `(i + 3) % 12`. -/
def rotCcw (s : Nat → Nat) : Nat → Nat :=
  fun i => if i < 12 then s ((i + 3) % 12) else s i

/-- `type(feat)` of a nullable feature reference, as compared by the edge
matching test `type(feat) is not type(feat_b)` (None has type NoneType,
modelled as `none`).  A pennant town and a plain town both have class
`Town`, hence the same value here. -/
def featTypeOf (st : GState) (f : Option Nat) : Option FKind :=
  f.map fun fid => (st.feats fid).kind

/-- The `tiles = {}` / `len(tiles)` idiom of `Town.score` and `Road.score`:
the number of distinct tiles owning the `EdgeSlot`s of a feature. -/
def edgeTileCount (st : GState) (fid : Nat) : Nat :=
  (((st.feats fid).slots.filterMap fun sid =>
      if (st.slots sid).kind = SlotKind.edge then (st.slots sid).tile else none)).dedup.length

/-- `Town.score`: `(len(tiles) + self.flags) * (1 if endgame else 2)`. -/
def townScore (st : GState) (fid : Nat) (endgame : Bool) : Nat :=
  (edgeTileCount st fid + (st.feats fid).flags) * (if endgame then 1 else 2)

/-- `Road.score`: `len(tiles)`. -/
def roadScore (st : GState) (fid : Nat) : Nat :=
  edgeTileCount st fid

/-- `Meadow.score`: `len(towns) * 3` where `towns` collects the distinct
completed features referenced by the `town_slots` connectors. -/
def meadowScore (st : GState) (fid : Nat) : Nat :=
  (((st.feats fid).townSlots.filterMap fun sid =>
      match (st.slots sid).feature with
      | some tf => if (st.feats tf).completed then some tf else none
      | none => none)).dedup.length * 3

/-- `Mill.score`: `self.slots[0].tile.neighbours + 1`.  A mill always has
exactly one slot plugged at construction; the empty/none fallbacks are
unreachable (Python would raise there). -/
def millScore (st : GState) (fid : Nat) : Nat :=
  match (st.feats fid).slots with
  | [] => 0
  | sid :: _ =>
      match (st.slots sid).tile with
      | some t => (st.tiles t).neighbours + 1
      | none => 0

/-- Virtual dispatch of `Feature.score`. -/
def featScore (st : GState) (fid : Nat) (endgame : Bool) : Nat :=
  match (st.feats fid).kind with
  | FKind.town => townScore st fid endgame
  | FKind.road => roadScore st fid
  | FKind.meadow => meadowScore st fid
  | FKind.mill => millScore st fid

/-- Virtual dispatch of `Feature.should_complete`: Town/Road complete when
no member `EdgeSlot` is still available; Meadow inherits the base `False`;
Mill completes when its host tile has 8 neighbours. -/
def shouldComplete (st : GState) (fid : Nat) : Bool :=
  match (st.feats fid).kind with
  | FKind.town =>
      (st.feats fid).slots.all fun sid =>
        !((st.slots sid).kind = SlotKind.edge && (st.slots sid).available)
  | FKind.road =>
      (st.feats fid).slots.all fun sid =>
        !((st.slots sid).kind = SlotKind.edge && (st.slots sid).available)
  | FKind.meadow => false
  | FKind.mill =>
      match (st.feats fid).slots with
      | [] => false
      | sid :: _ =>
          match (st.slots sid).tile with
          | some t => (st.tiles t).neighbours = 8
          | none => false

/-- `max(self.player_sheeples.values(), default=-1)`. -/
def completeMost (l : List (Nat × Nat)) : Int :=
  (l.map fun q => (q.2 : Int)).foldl max (-1)

/-- The player loop of `Feature.complete`: each committer gets its sheeple
count back and logs `PlayerSheepleInfo`; committers matching
`most_sheeples` additionally get the full (never split) score and log
`PlayerScoreInfo`. -/
def distribute (score : Nat) (most : Int) : List (Nat × Nat) → GState → GState
  | [], st => st
  | (p, c) :: rest, st =>
      let pl1 := st.players p
      let stA : GState :=
        { st with
          players := updF st.players p { pl1 with sheeples := pl1.sheeples + c },
          events := st.events ++ [Event.sheeple p] }
      let stB : GState :=
        if (c : Int) = most then
          let pl2 := stA.players p
          { stA with
            players := updF stA.players p { pl2 with score := pl2.score + score },
            events := stA.events ++ [Event.scored p] }
        else stA
      distribute score most rest stB

/-- `Feature.complete` with a working `log` callback (every in-game call
passes `log=self.log`): no-op when already completed, otherwise compute
the score and the sheeple maximum, set `completed`, run the distribution
loop, and emit `CompletedInfo`. -/
def completeF (st : GState) (fid : Nat) (endgame : Bool) : GState :=
  let f := st.feats fid
  if f.completed then st
  else
    let score := featScore st fid endgame
    let most := completeMost f.sheeples
    let st1 : GState := { st with feats := updF st.feats fid { f with completed := true } }
    let st2 := distribute score most f.sheeples st1
    { st2 with events := st2.events ++ [Event.completedFeat fid] }

/-- The sheeple-map merge of `Feature.absorb`: for each source entry, add
its count to the target entry, creating the key with value 0 first when
absent (a Python dict append). -/
def bumpSheeples (l : List (Nat × Nat)) (p c : Nat) : List (Nat × Nat) :=
  if l.any fun q => q.1 = p then
    l.map fun q => if q.1 = p then (q.1, q.2 + c) else q
  else l ++ [(p, c)]

/-- Fold of `bumpSheeples` over the source map in insertion order. -/
def addSheeples (tgt : List (Nat × Nat)) : List (Nat × Nat) → List (Nat × Nat)
  | [] => tgt
  | (p, c) :: rest => addSheeples (bumpSheeples tgt p c) rest

/-- The structural part of `Feature.absorb` (lines 48-60): merge the
sheeple maps, re-point every source slot's feature reference to the
target, extend the target's slot list, and empty the source. -/
def absorbMergeSt (st : GState) (tgt src : Nat) : GState :=
  let tf := st.feats tgt
  let sf := st.feats src
  let feats1 := updF st.feats tgt
    { tf with sheeples := addSheeples tf.sheeples sf.sheeples, slots := tf.slots ++ sf.slots }
  let feats2 := updF feats1 src { sf with slots := [], sheeples := [] }
  let slots1 := sf.slots.foldl
    (fun acc sid => updF acc sid { acc sid with feature := some tgt }) st.slots
  { st with feats := feats2, slots := slots1 }

/-- `Feature.absorb` plus the subclass extensions: identity when target and
source are the same object; after the structural merge the target is
re-evaluated and possibly completed; ONLY THEN `Town.absorb` moves the
flags (`self.flags += other.flags` after `super().absorb`) and
`Meadow.absorb` moves the `town_slots` list. -/
def absorbF (st : GState) (tgt src : Nat) : GState :=
  if tgt = src then st
  else
    let st1 := absorbMergeSt st tgt src
    let st2 := if shouldComplete st1 tgt then completeF st1 tgt false else st1
    match (st.feats tgt).kind with
    | FKind.town =>
        let tf2 := st2.feats tgt
        let sf2 := st2.feats src
        { st2 with
          feats := updF (updF st2.feats tgt { tf2 with flags := tf2.flags + sf2.flags })
            src { sf2 with flags := 0 } }
    | FKind.meadow =>
        let tf2 := st2.feats tgt
        let sf2 := st2.feats src
        { st2 with
          feats := updF (updF st2.feats tgt { tf2 with townSlots := tf2.townSlots ++ sf2.townSlots })
            src { sf2 with townSlots := [] } }
    | _ => st2

/-- `PerpignanBoard.inbounds`: the grid is `7 * 12 = 84` cells square. -/
def inbounds (x y : Int) : Bool :=
  decide (0 ≤ x ∧ x < 84 ∧ 0 ≤ y ∧ y < 84)

/-- `Tile.slot_offsets`: side offset of a direction.  Only the four unit
directions are ever looked up; the final branch is the `(-1, 0)` entry. -/
def ofsOf (d : Int × Int) : Nat :=
  if d = ((0 : Int), (1 : Int)) then 0
  else if d = ((1 : Int), (0 : Int)) then 3
  else if d = ((0 : Int), (-1 : Int)) then 6
  else 9

/-- The iteration order of `Tile.slot_offsets` (dict insertion order). -/
def dirs : List (Int × Int) :=
  [((0 : Int), (1 : Int)), (1, 0), (0, -1), (-1, 0)]

/-- One iteration of the perpendicular-rotation loop of the river/town
guard: the cell `(x_b + dx_rot, y_b + dy_rot)` holds a tile whose slot
`slot_offsets[(-dx_rot, -dy_rot)] + 1` carries a `Town`. -/
def dangerRot (st : GState) (xb yb dxr dyr : Int) : Bool :=
  if inbounds (xb + dxr) (yb + dyr) then
    match st.grid (xb + dxr) (yb + dyr) with
    | none => false
    | some tc =>
        decide (featTypeOf st ((st.slots ((st.tiles tc).slots (ofsOf (-dxr, -dyr) + 1))).feature)
          = some FKind.town)
  else false

/-- The river/town guard over `rots = [(-dy, dx), (dy, -dx)]`; the loop
raises on the first dangerous rotation, so it reduces to a disjunction. -/
def riverTownDanger (st : GState) (xb yb dx dy : Int) : Bool :=
  dangerRot st xb yb (-dy) dx || dangerRot st xb yb dy (-dx)

/-- The exact situation in which the direction scan raises the river/town
error for direction `d`: the facing cell is empty and in bounds, the new
tile's middle edge slot towards it is feature-less (a river), and a
perpendicular placed tile holds a Town on the perimeter slot facing that
cell. -/
def riverTownTrigger (st : GState) (t : Nat) (x y : Int) (d : Int × Int) : Prop :=
  inbounds (x + d.1) (y + d.2) = true ∧
  st.grid (x + d.1) (y + d.2) = none ∧
  (st.slots ((st.tiles t).slots (ofsOf d + 1))).feature = none ∧
  riverTownDanger st (x + d.1) (y + d.2) d.1 d.2 = true

instance (st : GState) (t : Nat) (x y : Int) (d : Int × Int) :
    Decidable (riverTownTrigger st t x y d) := by
  unfold riverTownTrigger
  infer_instance

/-- The neighbour-enumeration loop of `PerpignanBoard.place` (lines
676-707): builds `nxbours` and `becomes_available` in direction order and
raises the river/town error when a feature-less (river) edge of the new
tile faces an empty cell that a perpendicular existing Town also faces. -/
def scanDirs (st : GState) (t : Nat) (x y : Int) :
    List (Int × Int) → Except PErr (List (Nat × Int × Int) × List (Int × Int))
  | [] => Except.ok ([], [])
  | d :: rest =>
      let xb := x + d.1
      let yb := y + d.2
      if inbounds xb yb then
        match st.grid xb yb with
        | some tb =>
            match scanDirs st t x y rest with
            | Except.error e => Except.error e
            | Except.ok (nx, bav) => Except.ok ((tb, d.1, d.2) :: nx, bav)
        | none =>
            if (st.slots ((st.tiles t).slots (ofsOf d + 1))).feature = none then
              if riverTownDanger st xb yb d.1 d.2 then
                Except.error (PErr.cantPlace "must not turn river into town")
              else
                match scanDirs st t x y rest with
                | Except.error e => Except.error e
                | Except.ok (nx, bav) => Except.ok (nx, (xb, yb) :: bav)
            else
              match scanDirs st t x y rest with
              | Except.error e => Except.error e
              | Except.ok (nx, bav) => Except.ok (nx, (xb, yb) :: bav)
      else scanDirs st t x y rest

/-- The sheeple-request validation block of `place` (lines 651-668), only
entered when `sheeples != 0`.  Slot indices are modelled as `Nat`; a
negative Python index would fail the same `range(0, 13)` test. -/
def sheepleChecks (st : GState) (pl : Option Nat) (t : Nat) (sheeples sslot : Nat) :
    Option PErr :=
  if sheeples = 0 then none
  else
    match pl with
    | none => some (PErr.valueError "player is None")
    | some p =>
        if 13 ≤ sslot then some (PErr.valueError "invalid slot")
        else if sheeples ≠ 2 ∧ sheeples ≠ 3 then
          some (PErr.valueError "invalid number of sheeples")
        else
          match (st.slots ((st.tiles t).slots sslot)).feature with
          | none => some (PErr.cantPlace ("sheeple on river at " ++ toString sslot))
          | some _ =>
              if sslot = 12 ∧
                  featTypeOf st ((st.slots ((st.tiles t).slots 12)).feature) ≠ some FKind.mill then
                some (PErr.cantPlace "tile has no mill")
              else if (st.players p).sheeples < sheeples then
                some (PErr.cantPlace "not enough sheeples")
              else if sheeples = 3 ∧ (st.players p).sheeples % 2 ≠ 1 then
                some (PErr.cantPlace "abbot already in use")
              else if sheeples = 2 ∧ (st.players p).sheeples = 3 then
                some (PErr.cantPlace "only abbot left")
              else none

/-- One facing sub-slot comparison of the matching loop (lines 717-727):
the feature classes must coincide, and the requested sheeple slot must not
coincide with a facing slot whose neighbour feature already has committed
sheeple. -/
def matchOne (st : GState) (t : Nat) (sheeples sslot : Nat) (tb : Nat) (dx dy : Int)
    (i : Nat) : Option PErr :=
  let idx := ofsOf (dx, dy) + i
  let idxb := ofsOf (-dx, -dy) + (2 - i)
  let feat := (st.slots ((st.tiles t).slots idx)).feature
  let featb := (st.slots ((st.tiles tb).slots idxb)).feature
  let featbBusy : Bool :=
    match featb with
    | some fb => !(st.feats fb).sheeples.isEmpty
    | none => false
  if featTypeOf st feat ≠ featTypeOf st featb then
    some (PErr.cantPlace ("mismatch at " ++ toString idx))
  else if 0 < sheeples ∧ sslot = idx ∧ featbBusy then
    some (PErr.cantPlace "sheeple conflict")
  else none

/-- The inner `for i in range(3)` of the matching loop. -/
def matchTriple (st : GState) (t : Nat) (sheeples sslot : Nat) (tb : Nat) (dx dy : Int) :
    Option PErr :=
  match matchOne st t sheeples sslot tb dx dy 0 with
  | some e => some e
  | none =>
      match matchOne st t sheeples sslot tb dx dy 1 with
      | some e => some e
      | none => matchOne st t sheeples sslot tb dx dy 2

/-- The outer matching loop over `nxbours`. -/
def matchLoop (st : GState) (t : Nat) (sheeples sslot : Nat) :
    List (Nat × Int × Int) → Option PErr
  | [] => none
  | q :: rest =>
      match matchTriple st t sheeples sslot q.1 q.2.1 q.2.2 with
      | some e => some e
      | none => matchLoop st t sheeples sslot rest

/-- The full validation phase of `PerpignanBoard.place` (lines 640-727).
This section of the source performs no writes whatsoever (it only reads
`self` and fills the local lists `nxbours` / `becomes_available`), so the
model types it as a read-only computation returning either the first
raised error or the data the commit phase needs. -/
def placeChecks (st : GState) (pl tid : Option Nat) (x y : Int) (sheeples sslot : Nat) :
    Except PErr (Nat × List (Nat × Int × Int) × List (Int × Int)) :=
  match tid with
  | none => Except.error (PErr.valueError "tile is None")
  | some t =>
      if inbounds x y = false then Except.error (PErr.cantPlace "out of bounds")
      else if (st.grid x y).isSome then Except.error (PErr.cantPlace "occupied")
      else
        match sheepleChecks st pl t sheeples sslot with
        | some e => Except.error e
        | none =>
            match scanDirs st t x y dirs with
            | Except.error e => Except.error e
            | Except.ok (nx, bav) =>
                if nx = [] then Except.error (PErr.cantPlace "in void")
                else
                  match matchLoop st t sheeples sslot nx with
                  | some e => Except.error e
                  | none => Except.ok (t, nx, bav)

/-- `self.available[coord] = True`: a dict insert (no-op reorder when the
key exists). -/
def availAdd (l : List (Int × Int)) (c : Int × Int) : List (Int × Int) :=
  if c ∈ l then l else l ++ [c]

/-- `del self.available[(x, y)]`.  Python raises KeyError on a missing
key; every reachable commit has the key present (each placement touches a
placed tile and the frontier invariant holds), so the model is the plain
erase. -/
def availDel (l : List (Int × Int)) (c : Int × Int) : List (Int × Int) :=
  l.erase c

/-- `feature.player_sheeples[player] = sheeples`: dict assignment. -/
def setSheeple (l : List (Nat × Nat)) (p c : Nat) : List (Nat × Nat) :=
  if l.any fun q => q.1 = p then l.map fun q => if q.1 = p then (q.1, c) else q
  else l ++ [(p, c)]

/-- Lines 745-752: mark both facing edge-slot triples unavailable. -/
def markUnavailable (st : GState) (t : Nat) (nx : List (Nat × Int × Int)) : GState :=
  nx.foldl
    (fun acc q =>
      (List.range 3).foldl
        (fun acc2 i =>
          let sid := (acc2.tiles t).slots (ofsOf (q.2.1, q.2.2) + i)
          let sidb := (acc2.tiles q.1).slots (ofsOf (-q.2.1, -q.2.2) + (2 - i))
          let s1 := updF acc2.slots sid { acc2.slots sid with available := false }
          let s2 := updF s1 sidb { s1 sidb with available := false }
          { acc2 with slots := s2 })
        acc)
    st

/-- Lines 755-762: absorb the new tile's features into the neighbours'.
The new tile's slot feature is re-read at every step because earlier
absorbs may have re-pointed it.  `feat_b` non-null with `feat` null cannot
happen after the matching loop; the model skips that unreachable case
(Python would raise inside `absorb`). -/
def mergeLoop (st : GState) (t : Nat) (nx : List (Nat × Int × Int)) : GState :=
  nx.foldl
    (fun acc q =>
      (List.range 3).foldl
        (fun acc2 i =>
          let f := (acc2.slots ((acc2.tiles t).slots (ofsOf (q.2.1, q.2.2) + i))).feature
          let fb := (acc2.slots ((acc2.tiles q.1).slots
            (ofsOf (-q.2.1, -q.2.2) + (2 - i)))).feature
          match fb, f with
          | some b, some a => absorbF acc2 b a
          | _, _ => acc2)
        acc)
    st

/-- Lines 765-772: the occupied 8-connected neighbour cells, in the
`i, j` double-loop order. -/
def eightNeighbours (st : GState) (x y : Int) : List Nat :=
  (([-1, 0, 1] : List Int).flatMap fun i =>
    ([-1, 0, 1] : List Int).filterMap fun j =>
      if i = 0 ∧ j = 0 then none
      else if inbounds (x + i) (y + j) then st.grid (x + i) (y + j) else none)

/-- `Tile.add_neighbours`: bump the count; at exactly 8 a hosted Mill
completes immediately. -/
def addNeighbours (st : GState) (tid : Nat) (n : Nat) : GState :=
  let t := st.tiles tid
  let t2 := { t with neighbours := t.neighbours + n }
  let st1 : GState := { st with tiles := updF st.tiles tid t2 }
  if t2.neighbours = 8 then
    match (st1.slots (t2.slots 12)).feature with
    | some f => if (st1.feats f).kind = FKind.mill then completeF st1 f false else st1
    | none => st1
  else st1

/-- The commit phase of `place` (lines 732-778), run only after all checks
passed: write the grid cell and tile coordinates, update the frontier,
record a requested sheeple, mark matched edges unavailable, merge
features, update 8-neighbour counts (possibly completing mills), and emit
`TilePlaceInfo`. -/
def placeCommit (st : GState) (pl : Option Nat) (t : Nat) (x y : Int)
    (sheeples sslot : Nat) (nx : List (Nat × Int × Int)) (bav : List (Int × Int)) : GState :=
  let td := st.tiles t
  let st1 : GState :=
    { st with
      grid := fun a b => if a = x ∧ b = y then some t else st.grid a b,
      tiles := updF st.tiles t { td with x := x, y := y },
      avail := bav.foldl availAdd (availDel st.avail (x, y)) }
  let st2 : GState :=
    if 0 < sheeples then
      match pl, (st1.slots ((st1.tiles t).slots sslot)).feature with
      | some p, some f =>
          let fd := st1.feats f
          let pd := st1.players p
          { st1 with
            feats := updF st1.feats f { fd with sheeples := setSheeple fd.sheeples p sheeples },
            players := updF st1.players p { pd with sheeples := pd.sheeples - sheeples },
            events := st1.events ++ [Event.sheeple p] }
      | _, _ => st1
    else st1
  let st3 := markUnavailable st2 t nx
  let st4 := mergeLoop st3 t nx
  let ns := eightNeighbours st4 x y
  let st5 := addNeighbours st4 t ns.length
  let st6 := ns.foldl (fun acc nid => addNeighbours acc nid 1) st5
  { st6 with events := st6.events ++ [Event.tilePlaced t] }

/-- `PerpignanBoard.place`: validation, then either the dry-run return,
the commit, or the raised error.  The result pairs the post-call state
with the raised exception, so state preservation on a dry run or an error
is an explicit statement about the model. -/
def place (st : GState) (pl tid : Option Nat) (coord : Int × Int)
    (sheeples sslot : Nat) (commit : Bool) : GState × Option PErr :=
  match placeChecks st pl tid coord.1 coord.2 sheeples sslot with
  | Except.error e => (st, some e)
  | Except.ok (t, nx, bav) =>
      if commit then (placeCommit st pl t coord.1 coord.2 sheeples sslot nx bav, none)
      else (st, none)

/-- `Feature.complete` as invoked by `PerpignanBoard.score` (line 811):
`feat.complete(self, endgame=True)` binds the BOARD OBJECT to the `log`
parameter positionally.  A board is not callable, so the first `log(...)`
invocation raises `TypeError`.  Every path past the `if self.completed`
guard reaches a `log` call (line 88 inside the player loop, or line 93
unconditionally), so for a not-yet-completed feature this call always
raises; for a completed feature the guard returns first. -/
def completeBadLog (st : GState) (fid : Nat) (_endgame : Bool) : Except PErr GState :=
  let f := st.feats fid
  if f.completed then Except.ok st
  else Except.error (PErr.typeError "PerpignanBoard object is not callable")

/-- The feature collection of `PerpignanBoard.score` (lines 797-808):
every non-null feature reachable from any placed tile's 13 slots, scanned
column-major as the nested generators do, deduplicated by identity. -/
def sweepFeatures (st : GState) : List Nat :=
  (((List.range 84).flatMap fun x =>
      (List.range 84).filterMap fun y => st.grid (x : Int) (y : Int)).flatMap fun tid =>
    (List.range 13).filterMap fun i => (st.slots ((st.tiles tid).slots i)).feature).dedup

/-- `PerpignanBoard.score`: `feat.complete(self, endgame=True)` over the
collected features.  The TypeError of the first not-yet-completed feature
propagates out of the loop. -/
def boardSweep (st : GState) : Except PErr GState :=
  (sweepFeatures st).foldlM (fun acc fid => completeBadLog acc fid true) st

/-- The deck-deadlock `while` loop of `PerpignanGame.place` (lines
856-858).  The Lean list stores the Python deck reversed: the list head is
the deck top `deck[-1]`, so `deck.pop()` is taking the tail.  Non-fitting
tiles are appended to `nofit` in pop order. -/
def skim (fits : Nat → Bool) : List Nat → List Nat → List Nat × List Nat
  | [], nofit => ([], nofit)
  | t :: rest, nofit => if fits t then (t :: rest, nofit) else skim fits rest (nofit ++ [t])

/-- The deck rebuild after a successful placement (lines 855-867), with
the placed tile already popped: skim the non-fitting run; if the deck
still holds a fitting tile AND the run is non-empty, pop the fitting tile,
shuffle the rest together (`self.deck + nofit`, which in the reversed view
is `nofit.reverse ++ deckRest`) and push the fitting tile back on top.
When nothing fits the deck is left empty — the `nofit` tiles are NOT
returned ("we leave the deck empty to terminate the game").  The shuffle
outcome is a parameter. -/
def deckPhase (fits : Nat → Bool) (deck0 : List Nat) (shuffle : List Nat → List Nat) :
    List Nat :=
  match skim fits deck0 [] with
  | (deck, nofit) =>
      match deck with
      | [] => []
      | tileThatFits :: deckRest =>
          if nofit = [] then tileThatFits :: deckRest
          else tileThatFits :: shuffle (nofit.reverse ++ deckRest)

/-- The turn-rotation state of `PerpignanGame`: the `players` list (names
stand in for player objects), `active_player_idx` and `active_player`.
The run loop polls `active_player` each iteration; `next_player` runs only
when a placement commits. -/
structure GameRot where
  players : List String
  activeIdx : Nat
  activePlayer : String
deriving DecidableEq

/-- The `PlayerQuitAction` branch of `handle_action` (line 908):
`del self.players[self.active_player_idx]` — nothing else changes. -/
def quitAction (g : GameRot) : GameRot :=
  { g with players := g.players.eraseIdx g.activeIdx }

/-- `PerpignanGame.next_player` (lines 910-912). -/
def nextPlayer (g : GameRot) : GameRot :=
  let i := (g.activeIdx + 1) % g.players.length
  { g with activeIdx := i, activePlayer := g.players.getD i "" }

/-- The same game state with every Town's flag count replaced arbitrarily
(`ff` gives the new count per feature) — the probe used to show that flag
counts cannot influence placement legality. -/
def setFlags (st : GState) (ff : Nat → Nat) : GState :=
  { st with feats := fun f => { st.feats f with flags := ff f } }

/-- A board with no tiles: all heap entries are inert defaults. -/
def emptySt : GState where
  grid := fun _ _ => none
  avail := []
  tiles := fun _ => { slots := fun i => i, x := -1, y := -1, neighbours := 0 }
  slots := fun _ => { kind := SlotKind.edge, tile := none, available := true, feature := none }
  feats := fun _ => { kind := FKind.meadow, slots := [], sheeples := [], completed := false,
                      flags := 0, townSlots := [] }
  players := fun _ => { score := 0, sheeples := 19 }
  events := []

/-- A board holding one tile (id 0) at (42,42) whose twelve edge slots all
belong to one uncompleted meadow (feature id 0) — the start-tile situation
every real game reaches the endgame sweep with. -/
def c1St : GState where
  grid := fun x y => if x = 42 ∧ y = 42 then some 0 else none
  avail := []
  tiles := fun _ => { slots := fun i => i, x := 42, y := 42, neighbours := 0 }
  slots := fun sid =>
    if sid < 12 then { kind := SlotKind.edge, tile := some 0, available := true, feature := some 0 }
    else { kind := SlotKind.tileSlot, tile := some 0, available := true, feature := none }
  feats := fun _ => { kind := FKind.meadow, slots := [0, 1, 2, 3, 4, 5, 6, 7, 8, 9, 10, 11],
                      sheeples := [], completed := false, flags := 0, townSlots := [] }
  players := fun _ => { score := 0, sheeples := 19 }
  events := []

/-- Two single-edge-slot towns about to merge: feature 0 (the absorb
target) has no flags and one committed sheeple of player 0; feature 1 (the
absorbed pennant town) has one flag.  Both edge slots are already
unavailable, so the merge completes the town. -/
def c3St : GState where
  grid := fun _ _ => none
  avail := []
  tiles := fun _ => { slots := fun i => i, x := -1, y := -1, neighbours := 0 }
  slots := fun sid =>
    if sid = 0 then { kind := SlotKind.edge, tile := some 0, available := false, feature := some 0 }
    else { kind := SlotKind.edge, tile := some 1, available := false, feature := some 1 }
  feats := fun fid =>
    if fid = 0 then { kind := FKind.town, slots := [0], sheeples := [(0, 2)], completed := false,
                      flags := 0, townSlots := [] }
    else { kind := FKind.town, slots := [1], sheeples := [], completed := false,
           flags := 1, townSlots := [] }
  players := fun _ => { score := 0, sheeples := 17 }
  events := []

/-- A state whose feature 0 is already completed. -/
def c4St : GState :=
  { emptySt with
    feats := fun _ => { kind := FKind.road, slots := [], sheeples := [], completed := false,
                        flags := 0, townSlots := [] } }

/-- The same state with feature 0 completed, for the idempotence witness. -/
def c4StDone : GState :=
  { emptySt with
    feats := fun _ => { kind := FKind.road, slots := [], sheeples := [], completed := true,
                        flags := 0, townSlots := [] } }

/-- A two-tile road (edge slots 0 and 1, both closed) on which players 0
and 1 each committed 2 sheeple — a scoring tie. -/
def c5St : GState where
  grid := fun _ _ => none
  avail := []
  tiles := fun _ => { slots := fun i => i, x := -1, y := -1, neighbours := 0 }
  slots := fun sid =>
    if sid = 0 then { kind := SlotKind.edge, tile := some 0, available := false, feature := some 0 }
    else { kind := SlotKind.edge, tile := some 1, available := false, feature := some 0 }
  feats := fun _ => { kind := FKind.road, slots := [0, 1], sheeples := [(0, 2), (1, 2)],
                      completed := false, flags := 0, townSlots := [] }
  players := fun _ => { score := 0, sheeples := 17 }
  events := []

/-- The concrete `PlayerQuit` scenario: three players, player "P0" (index
0) is active. -/
def c6g : GameRot where
  players := ["P0", "P1", "P2"]
  activeIdx := 0
  activePlayer := "P0"

/-- A board holding one tile (id 0, all slot ids equal to their index) at
(44,43) whose slot 10 (the middle slot of its west edge) carries a Town
(feature 0), plus an undrawn all-river tile (id 1, slot ids 100+i, no
features).  Placing tile 1 at (43,42) faces the empty cell (43,43) with a
river edge while the town tile faces that same cell perpendicularly. -/
def c8St : GState where
  grid := fun x y => if x = 44 ∧ y = 43 then some 0 else none
  avail := []
  tiles := fun tid =>
    if tid = 0 then { slots := fun i => i, x := 44, y := 43, neighbours := 0 }
    else { slots := fun i => 100 + i, x := -1, y := -1, neighbours := 0 }
  slots := fun sid =>
    if sid = 10 then { kind := SlotKind.edge, tile := some 0, available := true, feature := some 0 }
    else { kind := SlotKind.edge, tile := none, available := true, feature := none }
  feats := fun _ => { kind := FKind.town, slots := [10], sheeples := [], completed := false,
                      flags := 0, townSlots := [] }
  players := fun _ => { score := 0, sheeples := 19 }
  events := []

/-- C9: a single clockwise quarter-turn applied 4 times is the identity on
the slot mapping; each quarter turn leaves slot 12 fixed and sends index
i < 12 to the old index (i + 9) % 12 (a shift by one side, i.e. groups
of 3). -/
theorem rotate_cw_four_identity :
    ∀ s : Nat → Nat,
      rotCw (rotCw (rotCw (rotCw s))) = s ∧
      rotCw s 12 = s 12 ∧
      (∀ i, i < 12 → rotCw s i = s ((i + 9) % 12)) := by
  intro s
  refine ⟨?_, ?_, ?_⟩
  · funext i
    by_cases h : i < 12
    · have h9 : ∀ j : Nat, (j + 9) % 12 < 12 := fun j => Nat.mod_lt _ (by omega)
      simp only [rotCw, if_pos h, if_pos (h9 i), if_pos (h9 _), if_pos (h9 _)]
      congr 1
      omega
    · simp only [rotCw, if_neg h]
  · simp [rotCw]
  · intro i h
    simp [rotCw, h]

/-- Witness for the conditional part of C9 at a concrete slot map. -/
theorem rotate_cw_four_identity_witness :
    (3 : Nat) < 12 ∧ rotCw (fun i => i) 3 = (fun i : Nat => i) ((3 + 9) % 12) :=
  ⟨by decide, (rotate_cw_four_identity (fun i => i)).2.2 3 (by decide)⟩

section Helpers

theorem updF_same {α : Type} (h : Nat → α) (i : Nat) (v : α) : updF h i v i = v := by
  simp [updF]

theorem updF_other {α : Type} (h : Nat → α) (i j : Nat) (v : α) (hne : j ≠ i) :
    updF h i v j = h j := by
  simp [updF, hne]

theorem distribute_feats (s : Nat) (m : Int) :
    ∀ (l : List (Nat × Nat)) (st : GState), (distribute s m l st).feats = st.feats := by
  intro l
  induction l with
  | nil => intro st; rfl
  | cons q rest ih =>
      intro st
      obtain ⟨p, c⟩ := q
      simp only [distribute]
      rw [ih]
      split <;> rfl

theorem distribute_slots (s : Nat) (m : Int) :
    ∀ (l : List (Nat × Nat)) (st : GState), (distribute s m l st).slots = st.slots := by
  intro l
  induction l with
  | nil => intro st; rfl
  | cons q rest ih =>
      intro st
      obtain ⟨p, c⟩ := q
      simp only [distribute]
      rw [ih]
      split <;> rfl

theorem distribute_players_notmem (s : Nat) (m : Int) :
    ∀ (l : List (Nat × Nat)) (st : GState) (p : Nat), p ∉ l.map Prod.fst →
      (distribute s m l st).players p = st.players p := by
  intro l
  induction l with
  | nil => intro st p _; rfl
  | cons q rest ih =>
      intro st p hp
      obtain ⟨qp, qc⟩ := q
      have hpq : p ≠ qp := by
        intro h
        exact hp (by simp [h])
      have hprest : p ∉ rest.map Prod.fst := by
        intro h
        exact hp (by simp [h])
      simp only [distribute]
      rw [ih _ _ hprest]
      split <;> simp [updF_other _ _ _ _ hpq]

theorem distribute_players_mem (s : Nat) (m : Int) :
    ∀ (l : List (Nat × Nat)) (st : GState) (p c : Nat),
      (l.map Prod.fst).Nodup → (p, c) ∈ l →
      (distribute s m l st).players p =
        { score := (st.players p).score + (if (c : Int) = m then s else 0),
          sheeples := (st.players p).sheeples + c } := by
  intro l
  induction l with
  | nil => intro st p c _ hm; cases hm
  | cons q rest ih =>
      intro st p c hnd hm
      obtain ⟨qp, qc⟩ := q
      have hnd1 : qp ∉ rest.map Prod.fst := by
        simp only [List.map_cons, List.nodup_cons] at hnd
        exact hnd.1
      have hnd2 : (rest.map Prod.fst).Nodup := by
        simp only [List.map_cons, List.nodup_cons] at hnd
        exact hnd.2
      rcases List.mem_cons.mp hm with heq | hmem
      · obtain ⟨rfl, rfl⟩ : p = qp ∧ c = qc := by
          injection heq with h1 h2
          exact ⟨h1, h2⟩
        simp only [distribute]
        rw [distribute_players_notmem _ _ _ _ _ hnd1]
        by_cases hcm : (c : Int) = m
        · simp [hcm, updF_same]
        · simp [hcm, updF_same]
      · have hpq : p ≠ qp := by
          intro h
          exact hnd1 (h ▸ (List.mem_map.mpr ⟨(p, c), hmem, rfl⟩))
        simp only [distribute]
        rw [ih _ _ _ hnd2 hmem]
        split <;> simp [updF_other _ _ _ _ hpq]

theorem completeF_feats (st : GState) (fid : Nat) (e : Bool) :
    (completeF st fid e).feats =
      if (st.feats fid).completed then st.feats
      else updF st.feats fid { st.feats fid with completed := true } := by
  by_cases h : (st.feats fid).completed <;>
    simp [completeF, h, distribute_feats]

theorem completeF_slots (st : GState) (fid : Nat) (e : Bool) :
    (completeF st fid e).slots = st.slots := by
  by_cases h : (st.feats fid).completed <;>
    simp [completeF, h, distribute_slots]

theorem completeF_flags (st : GState) (fid : Nat) (e : Bool) (g : Nat) :
    ((completeF st fid e).feats g).flags = (st.feats g).flags := by
  rw [completeF_feats]
  split
  · rfl
  · by_cases hg : g = fid
    · subst hg; rw [updF_same]
    · rw [updF_other _ _ _ _ hg]

end Helpers

section MaxHelpers

theorem foldl_max_le_init : ∀ (l : List Int) (a : Int), a ≤ l.foldl max a := by
  intro l
  induction l with
  | nil => intro a; simp
  | cons b l ih =>
      intro a
      calc a ≤ max a b := le_max_left _ _
        _ ≤ l.foldl max (max a b) := ih _

theorem foldl_max_le_of_mem : ∀ (l : List Int) (a x : Int), x ∈ l → x ≤ l.foldl max a := by
  intro l
  induction l with
  | nil => intro a x hx; cases hx
  | cons b l ih =>
      intro a x hx
      rcases List.mem_cons.mp hx with rfl | hx2
      · calc x ≤ max a x := le_max_right _ _
          _ ≤ l.foldl max (max a x) := foldl_max_le_init _ _
      · exact ih _ _ hx2

theorem foldl_max_mem_or_init : ∀ (l : List Int) (a : Int),
    l.foldl max a = a ∨ l.foldl max a ∈ l := by
  intro l
  induction l with
  | nil => intro a; left; rfl
  | cons b l ih =>
      intro a
      rcases ih (max a b) with h | h
      · rcases max_choice a b with hm | hm
        · left; simpa [hm] using h
        · right; simp only [List.foldl_cons]; rw [h, hm]; exact List.mem_cons_self _ _
      · right; exact List.mem_cons_of_mem _ h

theorem completeMost_max_iff (l : List (Nat × Nat)) (p c : Nat) (hm : (p, c) ∈ l) :
    ((c : Int) = completeMost l ↔ ∀ q ∈ l, (q.2 : Int) ≤ (c : Int)) := by
  constructor
  · intro h q hq
    have hmem : ((q.2 : Int)) ∈ l.map fun r => ((r.2 : Int)) :=
      List.mem_map.mpr ⟨q, hq, rfl⟩
    rw [h]
    exact foldl_max_le_of_mem _ _ _ hmem
  · intro h
    have hcle : (c : Int) ≤ completeMost l :=
      foldl_max_le_of_mem _ _ _ (List.mem_map.mpr ⟨(p, c), hm, rfl⟩)
    rcases foldl_max_mem_or_init (l.map fun r => ((r.2 : Int))) (-1) with h0 | hmem
    · exfalso
      have hc0 : (0 : Int) ≤ (c : Int) := Int.natCast_nonneg c
      have : completeMost l = -1 := h0
      omega
    · obtain ⟨q, hq, hqe⟩ := List.mem_map.mp hmem
      have hle : (q.2 : Int) ≤ (c : Int) := h q hq
      rw [completeMost] at hcle ⊢
      omega

end MaxHelpers

section AbsorbHelpers

theorem repoint_eq (tgt : Nat) :
    ∀ (l : List Nat) (h : Nat → SlotData) (sid : Nat),
      (l.foldl (fun acc s => updF acc s { acc s with feature := some tgt }) h) sid =
        if sid ∈ l then { h sid with feature := some tgt } else h sid := by
  intro l
  induction l with
  | nil => intro h sid; simp
  | cons a l ih =>
      intro h sid
      simp only [List.foldl_cons]
      rw [ih]
      by_cases hsa : sid = a
      · subst hsa
        by_cases hsl : sid ∈ l <;> simp [hsl, updF_same]
      · by_cases hsl : sid ∈ l <;>
          simp [hsl, hsa, updF_other _ _ _ _ hsa, List.mem_cons]

theorem absorbMergeSt_feats_tgt (st : GState) (tgt src : Nat) (hne : tgt ≠ src) :
    (absorbMergeSt st tgt src).feats tgt =
      { st.feats tgt with
        sheeples := addSheeples (st.feats tgt).sheeples (st.feats src).sheeples,
        slots := (st.feats tgt).slots ++ (st.feats src).slots } := by
  simp only [absorbMergeSt]
  rw [updF_other _ _ _ _ hne, updF_same]

theorem absorbMergeSt_feats_src (st : GState) (tgt src : Nat) :
    (absorbMergeSt st tgt src).feats src =
      { st.feats src with slots := [], sheeples := [] } := by
  simp only [absorbMergeSt]
  rw [updF_same]

theorem absorbMergeSt_players (st : GState) (tgt src : Nat) :
    (absorbMergeSt st tgt src).players = st.players := rfl

theorem absorbMergeSt_slots (st : GState) (tgt src : Nat) (sid : Nat) :
    (absorbMergeSt st tgt src).slots sid =
      if sid ∈ (st.feats src).slots then { st.slots sid with feature := some tgt }
      else st.slots sid := by
  simp only [absorbMergeSt]
  exact repoint_eq _ _ _ _

theorem absorbF_town_flags (st : GState) (tgt src : Nat) (hne : tgt ≠ src)
    (hkt : (st.feats tgt).kind = FKind.town) :
    ((absorbF st tgt src).feats tgt).flags = (st.feats tgt).flags + (st.feats src).flags := by
  simp only [absorbF, if_neg hne, hkt]
  by_cases hsc : shouldComplete (absorbMergeSt st tgt src) tgt = true
  · rw [if_pos hsc, updF_other _ _ _ _ hne, updF_same]
    simp only [completeF_flags, absorbMergeSt_feats_tgt st tgt src hne,
      absorbMergeSt_feats_src st tgt src]
  · rw [if_neg hsc, updF_other _ _ _ _ hne, updF_same]
    simp only [absorbMergeSt_feats_tgt st tgt src hne,
      absorbMergeSt_feats_src st tgt src]

theorem absorbF_slots_heap (st : GState) (tgt src : Nat) (hne : tgt ≠ src) :
    (absorbF st tgt src).slots = (absorbMergeSt st tgt src).slots := by
  simp only [absorbF, if_neg hne]
  cases hk : (st.feats tgt).kind <;>
    by_cases hsc : shouldComplete (absorbMergeSt st tgt src) tgt <;>
      simp [hsc, completeF_slots]

theorem absorbF_feats_src_slots (st : GState) (tgt src : Nat) (hne : tgt ≠ src)
    (hkt : (st.feats tgt).kind = FKind.town) :
    ((absorbF st tgt src).feats src).slots = [] := by
  simp only [absorbF, if_neg hne, hkt]
  by_cases hsc : shouldComplete (absorbMergeSt st tgt src) tgt = true
  · rw [if_pos hsc, updF_same]
    simp only [completeF_feats]
    split
    · simp [absorbMergeSt_feats_src]
    · rw [updF_other _ _ _ _ (Ne.symm hne)]
      simp [absorbMergeSt_feats_src]
  · rw [if_neg hsc, updF_same]
    simp [absorbMergeSt_feats_src]

end AbsorbHelpers

section ScanHelpers

theorem scanDirs_error_of_trigger (st : GState) (t : Nat) (x y : Int) :
    ∀ ds : List (Int × Int), (∃ d ∈ ds, riverTownTrigger st t x y d) →
      scanDirs st t x y ds = Except.error (PErr.cantPlace "must not turn river into town") := by
  intro ds
  induction ds with
  | nil =>
      rintro ⟨d, hd, _⟩
      cases hd
  | cons d0 rest ih =>
      rintro ⟨d, hd, htrig⟩
      rcases List.mem_cons.mp hd with rfl | hmem
      · obtain ⟨h1, h2, h3, h4⟩ := htrig
        simp only [scanDirs]
        rw [if_pos h1, h2]
        rw [if_pos h3, if_pos h4]
      · have hrest := ih ⟨d, hmem, htrig⟩
        simp only [scanDirs]
        by_cases hb : inbounds (x + d0.1) (y + d0.2) = true
        · rw [if_pos hb]
          cases hg : st.grid (x + d0.1) (y + d0.2) with
          | some tb => rw [hrest]
          | none =>
              by_cases hf : (st.slots ((st.tiles t).slots (ofsOf d0 + 1))).feature = none
              · rw [if_pos hf]
                by_cases hdg : riverTownDanger st (x + d0.1) (y + d0.2) d0.1 d0.2 = true
                · rw [if_pos hdg]
                · rw [if_neg hdg, hrest]
              · rw [if_neg hf, hrest]
        · rw [if_neg hb]
          exact hrest

end ScanHelpers

section DeckHelpers

theorem skim_spec (fits : Nat → Bool) :
    ∀ (deck nofit : List Nat),
      ((skim fits deck nofit).1 ++ (skim fits deck nofit).2).Perm (deck ++ nofit) ∧
      ((skim fits deck nofit).1 = [] ∨
        ∃ t rest, (skim fits deck nofit).1 = t :: rest ∧ fits t = true) := by
  intro deck
  induction deck with
  | nil => intro nofit; simp [skim]
  | cons t rest ih =>
      intro nofit
      by_cases hf : fits t = true
      · refine ⟨?_, Or.inr ⟨t, rest, ?_, hf⟩⟩
        · simp [skim, hf]
        · simp [skim, hf]
      · have hstep : skim fits (t :: rest) nofit = skim fits rest (nofit ++ [t]) := by
          simp [skim, hf]
        rw [hstep]
        refine ⟨?_, (ih (nofit ++ [t])).2⟩
        refine ((ih (nofit ++ [t])).1).trans ?_
        rw [← List.append_assoc]
        exact List.perm_append_comm

end DeckHelpers

/-- C2: a `place` call with `commit=False`, and any `place` call that
raises `CantPlaceThatThereError` or `ValueError` (every error the model
can produce from `place`), leaves the entire game state — grid, available
set, all players, tiles, slots, features — exactly as it was.  The raising
section of the source (lines 640-727) performs no writes and the dry run
returns before the commit section. -/
theorem place_dry_run_and_error_frame (st : GState) (pl tid : Option Nat)
    (coord : Int × Int) (sh ss : Nat) (commit : Bool)
    (h : commit = false ∨ (place st pl tid coord sh ss commit).2.isSome = true) :
    (place st pl tid coord sh ss commit).1 = st := by
  rcases h with rfl | herr
  · unfold place
    cases hc : placeChecks st pl tid coord.1 coord.2 sh ss with
    | error e => rfl
    | ok v =>
        obtain ⟨t, nx, bav⟩ := v
        rfl
  · unfold place at herr ⊢
    cases hc : placeChecks st pl tid coord.1 coord.2 sh ss with
    | error e => rfl
    | ok v =>
        obtain ⟨t, nx, bav⟩ := v
        rw [hc] at herr
        cases commit with
        | false => rfl
        | true => simp at herr

/-- Witness for C2: a dry run that rejects (`tile is None`) on the empty
board returns the state unchanged. -/
theorem place_dry_run_and_error_frame_witness :
    ((false = false ∨ (place emptySt none none (0, 0) 0 0 false).2.isSome = true) ∧
      (place emptySt none none (0, 0) 0 0 false).1 = emptySt) :=
  ⟨Or.inl rfl, place_dry_run_and_error_frame emptySt none none (0, 0) 0 0 false (Or.inl rfl)⟩

/-- C8: placing a tile whose feature-less (river) edge faces an empty
in-bounds cell that a perpendicular placed Town also faces raises
`CantPlaceThatThereError` with reason "must not turn river into town",
with the whole state (in particular the available set) unchanged. -/
theorem place_river_town_guard (st : GState) (pl : Option Nat) (t : Nat) (x y : Int)
    (ss : Nat) (commit : Bool)
    (hin : inbounds x y = true) (hocc : st.grid x y = none)
    (htr : ∃ d ∈ dirs, riverTownTrigger st t x y d) :
    place st pl (some t) (x, y) 0 ss commit =
      (st, some (PErr.cantPlace "must not turn river into town")) := by
  have hscan := scanDirs_error_of_trigger st t x y dirs htr
  simp [place, placeChecks, hin, hocc, hscan, sheepleChecks]

/-- Witness for C8: the concrete two-tile scenario of `c8St`. -/
theorem place_river_town_guard_witness :
    (inbounds 43 42 = true ∧ c8St.grid 43 42 = none ∧
      riverTownTrigger c8St 1 43 42 ((0 : Int), (1 : Int)) ∧
      ((0 : Int), (1 : Int)) ∈ dirs) ∧
    place c8St none (some 1) (43, 42) 0 0 false =
      (c8St, some (PErr.cantPlace "must not turn river into town")) :=
  ⟨⟨by decide, by decide, by decide, by decide⟩,
    place_river_town_guard c8St none 1 43 42 0 false (by decide) (by decide)
      ⟨((0 : Int), (1 : Int)), by decide, by decide⟩⟩

/-- C1 (code bug): `PerpignanBoard.score` passes the board itself as the
`log` callback (`feat.complete(self, endgame=True)`), so the sweep raises
`TypeError` at the first not-yet-completed feature instead of completing
and scoring it: on a board holding a single tile with one open meadow the
sweep errors. -/
theorem board_sweep_crashes :
    boardSweep c1St = Except.error (PErr.typeError "PerpignanBoard object is not callable") := by
  rfl

/-- C6 (code bug): after the active player (index 0 of three) issues
`PlayerQuit`, the engine only deletes them from `players`;
`active_player` still references the quitter, so the run loop polls the
quitter for the next action — and when the quitter later commits a
placement, `next_player` advances from the stale index and hands the turn
to "P2", skipping "P1". -/
theorem player_quit_keeps_quitter_active :
    (quitAction c6g).activePlayer = "P0" ∧
    (quitAction c6g).players = ["P1", "P2"] ∧
    (nextPlayer (quitAction c6g)).activePlayer = "P2" := by
  refine ⟨rfl, by decide, ?_⟩
  rfl

/-- C4: `completed` flips to true at and stays true after any `complete`
call; a second `complete` call (any endgame flag, any merge path) is a
complete no-op on the state, so sheeple return, scoring and events fire at
most once; and a call on an already-completed feature changes nothing. -/
theorem complete_effects_at_most_once (st : GState) (fid : Nat) (e1 e2 : Bool) :
    ((completeF st fid e1).feats fid).completed = true ∧
    completeF (completeF st fid e1) fid e2 = completeF st fid e1 ∧
    ((st.feats fid).completed = true → completeF st fid e1 = st) := by
  have hc : ∀ (s : GState) (e : Bool), (s.feats fid).completed = true → completeF s fid e = s := by
    intro s e h
    simp [completeF, h]
  have h1 : ((completeF st fid e1).feats fid).completed = true := by
    by_cases h : (st.feats fid).completed = true
    · rw [hc st e1 h]
      exact h
    · have hfalse : (st.feats fid).completed = false := by
        cases hcc : (st.feats fid).completed
        · rfl
        · exact absurd hcc h
      rw [completeF_feats, hfalse]
      simp [updF_same]
  exact ⟨h1, hc _ e2 h1, hc st e1⟩

/-- Witness for C4: on a state whose feature 0 is completed, `complete` is
the identity. -/
theorem complete_effects_at_most_once_witness :
    (c4StDone.feats 0).completed = true ∧ completeF c4StDone 0 false = c4StDone :=
  ⟨by decide, (complete_effects_at_most_once c4StDone 0 false true).2.2 (by decide)⟩

/-- C5: when a not-yet-completed feature completes, every committer gets
its committed count added back to its hand unconditionally; exactly the
committers whose count equals the maximum receive the full score (ties
each paid in full); the code's `most_sheeples` is precisely the maximum
over all committers; and with zero committers no player changes at all
while the feature still flips to completed. -/
theorem complete_distribution (st : GState) (fid : Nat) (endgame : Bool)
    (hnc : (st.feats fid).completed = false)
    (hnd : ((st.feats fid).sheeples.map Prod.fst).Nodup) :
    (∀ p c, (p, c) ∈ (st.feats fid).sheeples →
        ((completeF st fid endgame).players p).sheeples = (st.players p).sheeples + c ∧
        ((completeF st fid endgame).players p).score =
          (st.players p).score +
            (if (c : Int) = completeMost (st.feats fid).sheeples then featScore st fid endgame
             else 0)) ∧
    (∀ p c, (p, c) ∈ (st.feats fid).sheeples →
        ((c : Int) = completeMost (st.feats fid).sheeples ↔
          ∀ q ∈ (st.feats fid).sheeples, (q.2 : Int) ≤ (c : Int))) ∧
    ((st.feats fid).sheeples = [] → (completeF st fid endgame).players = st.players) ∧
    ((completeF st fid endgame).feats fid).completed = true := by
  have hplayers : (completeF st fid endgame).players =
      (distribute (featScore st fid endgame) (completeMost (st.feats fid).sheeples)
        (st.feats fid).sheeples
        { st with feats := updF st.feats fid { st.feats fid with completed := true } }).players := by
    simp [completeF, hnc]
  refine ⟨?_, ?_, ?_, ?_⟩
  · intro p c hm
    rw [hplayers, distribute_players_mem _ _ _ _ _ _ hnd hm]
    exact ⟨rfl, rfl⟩
  · intro p c hm
    exact completeMost_max_iff _ p c hm
  · intro hempty
    rw [hplayers, hempty]
    rfl
  · rw [completeF_feats, hnc]
    simp [updF_same]

/-- Witness for C5: on the tied two-player road of `c5St`, player 0 gets
its 2 sheeple back and the full score. -/
theorem complete_distribution_witness :
    ((c5St.feats 0).completed = false ∧ ((c5St.feats 0).sheeples.map Prod.fst).Nodup ∧
      ((0 : Nat), (2 : Nat)) ∈ (c5St.feats 0).sheeples) ∧
    (((completeF c5St 0 false).players 0).sheeples = (c5St.players 0).sheeples + 2 ∧
      ((completeF c5St 0 false).players 0).score =
        (c5St.players 0).score +
          (if ((2 : Nat) : Int) = completeMost (c5St.feats 0).sheeples then featScore c5St 0 false
           else 0)) :=
  ⟨⟨by decide, by decide, by decide⟩,
    (complete_distribution c5St 0 false (by decide) (by decide)).1 0 2 (by decide)⟩

/-- Counterexample to C3: merging the pennant town (feature 1, 1 flag)
into town 0 (0 flags, one committed sheeple) completes the merged town —
final flag count 1, two distinct edge tiles — yet distributes only
(2 + 0) * 2 = 4 points, not the (2 + 1) * 2 = 6 the combined flag count
would give, because `Town.absorb` adds the flags only after
`super().absorb()` has already run `complete()`. -/
theorem town_absorb_flag_order_cex :
    ((absorbF c3St 0 1).feats 0).completed = true ∧
    ((absorbF c3St 0 1).feats 0).flags = 1 ∧
    edgeTileCount (absorbMergeSt c3St 0 1) 0 = 2 ∧
    ((absorbF c3St 0 1).players 0).score = 4 ∧
    (2 + 1) * 2 = 6 ∧ (4 : Nat) ≠ 6 := by
  refine ⟨?_, ?_, ?_, ?_, ?_, ?_⟩ <;> decide

/-- C3 as amended: the source's flags are added to the target only after
the structural merge AND after the completion re-evaluation, so when the
merge completes the town the distributed score is computed from the
target's pre-merge flag count alone — `(merged distinct edge-tile count +
target flags) * 2` — even though the merged town's final flag count is the
sum of both. -/
theorem town_absorb_flag_order (st : GState) (tgt src : Nat)
    (hne : tgt ≠ src)
    (hk : (st.feats tgt).kind = FKind.town)
    (hnc : (st.feats tgt).completed = false)
    (hsc : shouldComplete (absorbMergeSt st tgt src) tgt = true)
    (hnd : (((absorbMergeSt st tgt src).feats tgt).sheeples.map Prod.fst).Nodup) :
    ((absorbF st tgt src).feats tgt).flags = (st.feats tgt).flags + (st.feats src).flags ∧
    (∀ p c, (p, c) ∈ ((absorbMergeSt st tgt src).feats tgt).sheeples →
        (c : Int) = completeMost ((absorbMergeSt st tgt src).feats tgt).sheeples →
        ((absorbF st tgt src).players p).score =
          (st.players p).score +
            (edgeTileCount (absorbMergeSt st tgt src) tgt + (st.feats tgt).flags) * 2) := by
  refine ⟨absorbF_town_flags st tgt src hne hk, ?_⟩
  intro p c hm hcm
  have hplayers : (absorbF st tgt src).players =
      (completeF (absorbMergeSt st tgt src) tgt false).players := by
    simp only [absorbF, if_neg hne, hk]
    rw [if_pos hsc]
  have h1nc : ((absorbMergeSt st tgt src).feats tgt).completed = false := by
    rw [absorbMergeSt_feats_tgt st tgt src hne]
    exact hnc
  have h1k : ((absorbMergeSt st tgt src).feats tgt).kind = FKind.town := by
    rw [absorbMergeSt_feats_tgt st tgt src hne]
    exact hk
  have h1fl : ((absorbMergeSt st tgt src).feats tgt).flags = (st.feats tgt).flags := by
    rw [absorbMergeSt_feats_tgt st tgt src hne]
  have hcp : (completeF (absorbMergeSt st tgt src) tgt false).players =
      (distribute (featScore (absorbMergeSt st tgt src) tgt false)
        (completeMost ((absorbMergeSt st tgt src).feats tgt).sheeples)
        ((absorbMergeSt st tgt src).feats tgt).sheeples
        { absorbMergeSt st tgt src with
          feats := updF (absorbMergeSt st tgt src).feats tgt
            { (absorbMergeSt st tgt src).feats tgt with completed := true } }).players := by
    simp [completeF, h1nc]
  have hscore : featScore (absorbMergeSt st tgt src) tgt false =
      (edgeTileCount (absorbMergeSt st tgt src) tgt + (st.feats tgt).flags) * 2 := by
    simp [featScore, h1k, townScore, h1fl]
  rw [hplayers, hcp, distribute_players_mem _ _ _ _ _ _ hnd hm]
  rw [if_pos hcm, hscore]
  rfl

/-- Witness for C3's amended theorem at the concrete merge of `c3St`. -/
theorem town_absorb_flag_order_witness :
    ((0 : Nat) ≠ 1 ∧ (c3St.feats 0).kind = FKind.town ∧ (c3St.feats 0).completed = false ∧
      shouldComplete (absorbMergeSt c3St 0 1) 0 = true ∧
      (((absorbMergeSt c3St 0 1).feats 0).sheeples.map Prod.fst).Nodup ∧
      ((0 : Nat), (2 : Nat)) ∈ ((absorbMergeSt c3St 0 1).feats 0).sheeples) ∧
    ((absorbF c3St 0 1).feats 0).flags = (c3St.feats 0).flags + (c3St.feats 1).flags ∧
    ((absorbF c3St 0 1).players 0).score =
      (c3St.players 0).score +
        (edgeTileCount (absorbMergeSt c3St 0 1) 0 + (c3St.feats 0).flags) * 2 :=
  ⟨⟨by decide, by decide, by decide, by decide, by decide, by decide⟩,
    (town_absorb_flag_order c3St 0 1 (by decide) (by decide) (by decide) (by decide)
      (by decide)).1,
    (town_absorb_flag_order c3St 0 1 (by decide) (by decide) (by decide) (by decide)
      (by decide)).2 0 2 (by decide) (by decide)⟩


section FlagInvariance

theorem setFlags_grid (st : GState) (ff : Nat → Nat) : (setFlags st ff).grid = st.grid := rfl

theorem setFlags_tiles (st : GState) (ff : Nat → Nat) : (setFlags st ff).tiles = st.tiles := rfl

theorem setFlags_slots (st : GState) (ff : Nat → Nat) : (setFlags st ff).slots = st.slots := rfl

theorem setFlags_players (st : GState) (ff : Nat → Nat) :
    (setFlags st ff).players = st.players := rfl

theorem setFlags_kind (st : GState) (ff : Nat → Nat) (f : Nat) :
    ((setFlags st ff).feats f).kind = (st.feats f).kind := rfl

theorem setFlags_sheeples (st : GState) (ff : Nat → Nat) (f : Nat) :
    ((setFlags st ff).feats f).sheeples = (st.feats f).sheeples := rfl

theorem featTypeOf_setFlags (st : GState) (ff : Nat → Nat) (o : Option Nat) :
    featTypeOf (setFlags st ff) o = featTypeOf st o := by
  cases o <;> rfl

theorem dangerRot_setFlags (st : GState) (ff : Nat → Nat) (xb yb dxr dyr : Int) :
    dangerRot (setFlags st ff) xb yb dxr dyr = dangerRot st xb yb dxr dyr := by
  simp only [dangerRot, setFlags_grid, setFlags_tiles, setFlags_slots, featTypeOf_setFlags]

theorem riverTownDanger_setFlags (st : GState) (ff : Nat → Nat) (xb yb dx dy : Int) :
    riverTownDanger (setFlags st ff) xb yb dx dy = riverTownDanger st xb yb dx dy := by
  simp only [riverTownDanger, dangerRot_setFlags]

theorem scanDirs_setFlags (st : GState) (ff : Nat → Nat) (t : Nat) (x y : Int) :
    ∀ ds : List (Int × Int), scanDirs (setFlags st ff) t x y ds = scanDirs st t x y ds := by
  intro ds
  induction ds with
  | nil => rfl
  | cons d rest ih =>
      simp only [scanDirs, setFlags_grid, setFlags_tiles, setFlags_slots,
        riverTownDanger_setFlags, ih]

theorem sheepleChecks_setFlags (st : GState) (ff : Nat → Nat) (pl : Option Nat) (t : Nat)
    (sheeples sslot : Nat) :
    sheepleChecks (setFlags st ff) pl t sheeples sslot = sheepleChecks st pl t sheeples sslot := by
  simp only [sheepleChecks, setFlags_slots, setFlags_tiles, setFlags_players,
    featTypeOf_setFlags]

theorem matchOne_setFlags (st : GState) (ff : Nat → Nat) (t : Nat) (sheeples sslot : Nat)
    (tb : Nat) (dx dy : Int) (i : Nat) :
    matchOne (setFlags st ff) t sheeples sslot tb dx dy i =
      matchOne st t sheeples sslot tb dx dy i := by
  simp only [matchOne, setFlags_slots, setFlags_tiles, setFlags_sheeples, featTypeOf_setFlags]

theorem matchTriple_setFlags (st : GState) (ff : Nat → Nat) (t : Nat) (sheeples sslot : Nat)
    (tb : Nat) (dx dy : Int) :
    matchTriple (setFlags st ff) t sheeples sslot tb dx dy =
      matchTriple st t sheeples sslot tb dx dy := by
  simp only [matchTriple, matchOne_setFlags]

theorem matchLoop_setFlags (st : GState) (ff : Nat → Nat) (t : Nat) (sheeples sslot : Nat) :
    ∀ nx : List (Nat × Int × Int),
      matchLoop (setFlags st ff) t sheeples sslot nx = matchLoop st t sheeples sslot nx := by
  intro nx
  induction nx with
  | nil => rfl
  | cons q rest ih => simp only [matchLoop, matchTriple_setFlags, ih]

theorem placeChecks_setFlags (st : GState) (ff : Nat → Nat) (pl tid : Option Nat)
    (x y : Int) (sheeples sslot : Nat) :
    placeChecks (setFlags st ff) pl tid x y sheeples sslot =
      placeChecks st pl tid x y sheeples sslot := by
  cases tid with
  | none => rfl
  | some t =>
      simp only [placeChecks, setFlags_grid, sheepleChecks_setFlags, scanDirs_setFlags,
        matchLoop_setFlags]

end FlagInvariance

/-- C10: the edge-matching test compares feature classes only, so two
Towns match regardless of flag counts; replacing every feature's flag
count arbitrarily changes no verdict of the validation phase of `place`;
and absorbing one town into another yields a single feature — every source
slot re-pointed to the target, the source emptied — whose flag count is
the sum. -/
theorem town_flags_match_and_merge (st : GState) (ff : Nat → Nat) (pl tid : Option Nat)
    (x y : Int) (sh ss : Nat) (tgt src : Nat)
    (hne : tgt ≠ src) (hkt : (st.feats tgt).kind = FKind.town)
    (hks : (st.feats src).kind = FKind.town) :
    placeChecks (setFlags st ff) pl tid x y sh ss = placeChecks st pl tid x y sh ss ∧
    featTypeOf st (some tgt) = featTypeOf st (some src) ∧
    ((absorbF st tgt src).feats tgt).flags = (st.feats tgt).flags + (st.feats src).flags ∧
    ((absorbF st tgt src).feats src).slots = [] ∧
    (∀ sid, sid ∈ (st.feats src).slots → ((absorbF st tgt src).slots sid).feature = some tgt) := by
  refine ⟨placeChecks_setFlags st ff pl tid x y sh ss, ?_,
    absorbF_town_flags st tgt src hne hkt, absorbF_feats_src_slots st tgt src hne hkt, ?_⟩
  · simp [featTypeOf, hkt, hks]
  · intro sid hsid
    rw [absorbF_slots_heap st tgt src hne, absorbMergeSt_slots, if_pos hsid]

/-- Witness for C10: pennant town 1 and plain town 0 of `c3St` have equal
feature types, merge with summed flags, and re-flagging every feature to 7
leaves a concrete `placeChecks` verdict unchanged. -/
theorem town_flags_match_and_merge_witness :
    ((0 : Nat) ≠ 1 ∧ (c3St.feats 0).kind = FKind.town ∧ (c3St.feats 1).kind = FKind.town ∧
      (1 : Nat) ∈ (c3St.feats 1).slots) ∧
    featTypeOf c3St (some 0) = featTypeOf c3St (some 1) ∧
    ((absorbF c3St 0 1).feats 0).flags = (c3St.feats 0).flags + (c3St.feats 1).flags ∧
    ((absorbF c3St 0 1).slots 1).feature = some 0 ∧
    placeChecks (setFlags c3St fun _ => 7) none none 0 0 0 0 =
      placeChecks c3St none none 0 0 0 0 :=
  ⟨⟨by decide, by decide, by decide, by decide⟩,
    (town_flags_match_and_merge c3St (fun _ => 7) none none 0 0 0 0 0 1 (by decide) (by decide)
      (by decide)).2.1,
    (town_flags_match_and_merge c3St (fun _ => 7) none none 0 0 0 0 0 1 (by decide) (by decide)
      (by decide)).2.2.1,
    (town_flags_match_and_merge c3St (fun _ => 7) none none 0 0 0 0 0 1 (by decide) (by decide)
      (by decide)).2.2.2.2 1 (by decide),
    (town_flags_match_and_merge c3St (fun _ => 7) none none 0 0 0 0 0 1 (by decide) (by decide)
      (by decide)).1⟩

/-- Counterexample to C7: with two remaining tiles neither of which fits
anywhere, the loop pops both into `nofit`, the guard `len(self.deck) > 0`
fails, and the deck is left empty — not a permutation of the remaining
tiles: both are dropped from play. -/
theorem deck_drop_cex :
    (∀ l : List Nat, ((fun m : List Nat => m) l).Perm l) ∧
    deckPhase (fun _ => false) [5, 7] (fun m => m) = [] ∧
    ¬ (([] : List Nat).Perm [5, 7]) :=
  ⟨fun l => List.Perm.refl l, rfl, by decide⟩

/-- C7 as amended: after a successful placement, for every shuffle
outcome, the rebuilt deck is either empty (when no remaining tile fits
anywhere — the skipped tiles then leave play and the game ends) or a
permutation of the tiles that remained after popping the placed tile, with
a fitting tile on top and the non-fitting run reshuffled beneath it. -/
theorem deck_reshuffle_perm (fits : Nat → Bool) (deck0 : List Nat)
    (shuffle : List Nat → List Nat) (hsh : ∀ l, (shuffle l).Perm l) :
    deckPhase fits deck0 shuffle = [] ∨
    ((deckPhase fits deck0 shuffle).Perm deck0 ∧
      ∃ t rest, deckPhase fits deck0 shuffle = t :: rest ∧ fits t = true) := by
  have hs := skim_spec fits deck0 []
  rcases hskim : skim fits deck0 [] with ⟨deck, nofit⟩
  rw [hskim] at hs
  simp only [List.append_nil] at hs
  cases deck with
  | nil =>
      left
      simp [deckPhase, hskim]
  | cons t dr =>
      right
      rcases hs.2 with habs | ⟨t2, r2, heq, hft⟩
      · cases habs
      · have hftt : fits t = true := by
          have h1 : t = t2 := by cases heq; rfl
          rw [h1]
          exact hft
        by_cases hnof : nofit = []
        · have hval : deckPhase fits deck0 shuffle = t :: dr := by
            simp [deckPhase, hskim, hnof]
          rw [hval]
          have hperm := hs.1
          rw [hnof, List.append_nil] at hperm
          exact ⟨hperm, t, dr, rfl, hftt⟩
        · have hval : deckPhase fits deck0 shuffle = t :: shuffle (nofit.reverse ++ dr) := by
            simp [deckPhase, hskim, hnof]
          rw [hval]
          constructor
          · have p1 : (nofit.reverse ++ dr).Perm (dr ++ nofit) :=
              (List.Perm.append_right dr (List.reverse_perm nofit)).trans List.perm_append_comm
            have p2 : (t :: (dr ++ nofit)).Perm deck0 := hs.1
            exact (List.Perm.cons t ((hsh _).trans p1)).trans p2
          · exact ⟨t, shuffle (nofit.reverse ++ dr), rfl, hftt⟩

/-- Witness for C7's amended theorem: an identity shuffle on a deck whose
top already fits leaves the deck unchanged, satisfying the disjunction. -/
theorem deck_reshuffle_perm_witness :
    (∀ l : List Nat, ((fun m : List Nat => m) l).Perm l) ∧
    (deckPhase (fun _ => true) [3, 4] (fun m => m) = [] ∨
      ((deckPhase (fun _ => true) [3, 4] (fun m => m)).Perm [3, 4] ∧
        ∃ t rest, deckPhase (fun _ => true) [3, 4] (fun m => m) = t :: rest ∧
          (fun _ : Nat => true) t = true)) :=
  ⟨fun l => List.Perm.refl l,
    deck_reshuffle_perm (fun _ => true) [3, 4] (fun m => m) (fun l => List.Perm.refl l)⟩
